import Mathlib

/-!
Shallow embedding of `src/replibyte/src/source/postgres.rs` (the
`stream_rows` method of the `Database` impl for `Postgres`), together with
models of the `dump_parser` collaborator functions it calls, and proofs of
the specification claims about it.

Conventions:
* Rust `panic!` / `.unwrap()` failures are modelled as `Except.error`
  values that the pipeline turns into a `StreamResult.panicked` terminal
  outcome, distinct from the `StreamResult.err` outcome that models a
  returned `Err(..)` value.
* The collaborator functions `get_column_names_from_insert_into_query` and
  `get_column_values_from_insert_into_query` (from the `dump_parser` crate,
  not under `src/`) are kept as explicit function parameters of the
  pipeline; claims quantify over them.
* Rust `i128` / `f64` literal parsing is modelled over `Int` (with the
  i128 range check) and `Rat` (exact decimal arithmetic; the lexer
  guarantees numeric tokens contain only digits and dots, so no
  exponent/inf/nan forms arise).
-/

set_option maxRecDepth 100000

namespace Replibyte

/-- Modelled from the spec: the keyword tag carried by a word token of the
`dump_parser` lexer; only the keywords the classifier inspects are
distinguished. -/
inductive Keyword where
  | Insert
  | Into
  | NoKeyword
deriving DecidableEq

/-- Modelled from the spec: the token kinds of the `dump_parser` lexer that
`stream_rows` pattern-matches on (`Token` in the source).  `Word` carries
the word's value together with its keyword tag; `Other` stands for every
further token kind (whitespace, punctuation, NULL markers, ...), all of
which fall into the wildcard arm of the typing match. -/
inductive Token where
  | Number (value : String) (long : Bool)
  | Char (value : Char)
  | SingleQuotedString (value : String)
  | NationalStringLiteral (value : String)
  | HexStringLiteral (value : String)
  | Word (value : String) (keyword : Keyword)
  | Other
deriving DecidableEq

/-- The `Column` enum of `crate::types`: a typed column value, always
carrying the column name.  The float payload is modelled exactly as a
rational. -/
inductive Column where
  | NumberValue (name : String) (value : Int)
  | FloatNumberValue (name : String) (value : Rat)
  | StringValue (name : String) (value : String)
  | CharValue (name : String) (value : Char)
  | None (name : String)
deriving DecidableEq

/-- The `name()` accessor of `Column`. -/
def Column.name : Column → String
  | .NumberValue n _ => n
  | .FloatNumberValue n _ => n
  | .StringValue n _ => n
  | .CharValue n _ => n
  | .None n => n

/-- Numeric value of a digit list (most significant first); helper for the
literal parsers. -/
def digitsVal (cs : List Char) : Nat :=
  cs.foldl (fun n c => n * 10 + (c.toNat - 48)) 0

/-- Smallest `i128` value. -/
def i128Min : Int := -(2 ^ 127)

/-- Largest `i128` value. -/
def i128Max : Int := 2 ^ 127 - 1

/-- Model of Rust `str::parse::<i128>`: optional sign, one or more ASCII
digits, nothing else, and the value must fit in the signed 128-bit range;
otherwise the parse fails. -/
def parseI128 (s : String) : Option Int :=
  let p : Int × List Char :=
    match s.data with
    | '+' :: r => (1, r)
    | '-' :: r => (-1, r)
    | r => (1, r)
  if p.2 ≠ [] ∧ p.2.all Char.isDigit then
    let v : Int := p.1 * digitsVal p.2
    if i128Min ≤ v ∧ v ≤ i128Max then some v else none
  else none

/-- Model of Rust `str::parse::<f64>` on the decimal forms the lexer can
produce for numeric tokens (optional sign, digits, at most one dot, at
least one digit overall; no exponent/inf/nan, which digit-and-dot token
text cannot contain).  The value is represented exactly as a rational. -/
def parseF64 (s : String) : Option Rat :=
  let p : Int × List Char :=
    match s.data with
    | '+' :: r => (1, r)
    | '-' :: r => (-1, r)
    | r => (1, r)
  let ip := p.2.takeWhile (fun c => c != '.')
  let rest := p.2.dropWhile (fun c => c != '.')
  match rest with
  | [] =>
    if ip ≠ [] ∧ ip.all Char.isDigit then some (mkRat (p.1 * digitsVal ip) 1)
    else none
  | _ :: fp =>
    if fp.all (fun c => c != '.') ∧ ip.all Char.isDigit ∧ fp.all Char.isDigit
        ∧ (ip ≠ [] ∨ fp ≠ []) then
      some (mkRat (p.1 * (digitsVal ip * 10 ^ fp.length + digitsVal fp)) (10 ^ fp.length))
    else none

deriving instance DecidableEq for Except

/-- The per-value typing match of `stream_rows` (postgres.rs lines
120-147): classify one raw value token into a `Column` carrying the given
column name.  The two `.unwrap()` calls on numeric parses become
`Except.error` (a Rust panic). -/
def inferColumn (column_name : String) (value_token : Token) : Except String Column :=
  match value_token with
  | .Number column_value _ =>
    if column_value.data.contains '.' then
      match parseF64 column_value with
      | some v => .ok (.FloatNumberValue column_name v)
      | none => .error "called Result::unwrap() on an Err value"
    else
      match parseI128 column_value with
      | some v => .ok (.NumberValue column_name v)
      | none => .error "called Result::unwrap() on an Err value"
  | .Char column_value => .ok (.CharValue column_name column_value)
  | .SingleQuotedString column_value => .ok (.StringValue column_name column_value)
  | .NationalStringLiteral column_value => .ok (.StringValue column_name column_value)
  | .HexStringLiteral column_value => .ok (.StringValue column_name column_value)
  | _ => .ok (.None column_name)

example : inferColumn "qty" (Token.Number "123" false) = .ok (.NumberValue "qty" 123) := by
  decide

example : inferColumn "price" (Token.Number "1.50" false)
    = .ok (.FloatNumberValue "price" (mkRat 3 2)) := by decide

example : inferColumn "a" (Token.Number "." false)
    = .error "called Result::unwrap() on an Err value" := by decide

/-- Modelled from the spec: `match_keyword_at_position` of the
`dump_parser` collaborator (not under `src/`): true iff the token at the
given position is a word tagged with the given keyword. -/
def match_keyword_at_position (keyword : Keyword) (tokens : List Token) (pos : Nat) : Bool :=
  match tokens.get? pos with
  | some (Token.Word _ k) => k == keyword
  | _ => false

/-- Modelled from the spec: `get_word_value_at_position` of the
`dump_parser` collaborator (not under `src/`): the value of the word token
at the given position, if the token there is a word. -/
def get_word_value_at_position (tokens : List Token) (pos : Nat) : Option String :=
  match tokens.get? pos with
  | some (Token.Word v _) => some v
  | _ => none

/-- The `Transformer` trait object as `stream_rows` uses it: the
`table_and_column_name()` key and the `transform` function. -/
structure Transformer where
  table_and_column_name : String
  transform : Column → Column

/-- The registry build loop of `stream_rows` (postgres.rs lines 86-92): a
`HashMap` from `table.column` key to transformer, filled by one `insert`
per transformer in list order; `insert` replaces any previous binding, so
the last transformer for a key wins.  Modelled as the lookup function the
map denotes. -/
def transformer_by_table_and_column_name (transformers : List Transformer) :
    String → Option Transformer :=
  transformers.foldl
    (fun m transformer k =>
      if k = transformer.table_and_column_name then some transformer else m k)
    (fun _ => none)

/-- The per-column dispatch of `stream_rows` (postgres.rs lines 152-158):
look the `table.column` key up in the registry; on a hit apply the
transformer, otherwise keep the column unchanged. -/
def applyTransformer (registry : String → Option Transformer) (key : String)
    (column : Column) : Column :=
  match registry key with
  | some transformer => transformer.transform column
  | none => column

/-- The `Row` struct of `crate::types`. -/
structure Row where
  table_name : String
  columns : List Column
deriving DecidableEq

/-- The column loop of `stream_rows` (postgres.rs lines 114-162), started
at index `i`: for each column name, fetch the value token at the same
index (`column_values.get(i).unwrap()` — a missing index is a panic,
modelled as `Except.error`), type it (`inferColumn`, whose numeric
`.unwrap()` panics also surface as `Except.error`), keep the untouched
column for the original row, and dispatch the transformed column through
the registry.  Returns the original and transformed column sequences. -/
def processColumnsFrom (registry : String → Option Transformer) (table_name : String)
    (column_values : List Token) : Nat → List String → Except String (List Column × List Column)
  | _, [] => .ok ([], [])
  | i, column_name :: rest =>
    match column_values.get? i with
    | none => .error "called Option::unwrap() on a None value"
    | some value_token =>
      match inferColumn column_name value_token with
      | .error e => .error e
      | .ok column =>
        let original_column := column
        let column := applyTransformer registry (table_name ++ "." ++ column_name) column
        match processColumnsFrom registry table_name column_values (i + 1) rest with
        | .error e => .error e
        | .ok (original_columns, columns) =>
          .ok (original_column :: original_columns, column :: columns)

/-- The body of the closure `stream_rows` passes to
`list_queries_from_dump_reader` (postgres.rs lines 96-175), for one
statement's token sequence: classify by keyword positions 0 and 2 and the
word at position 6; on a match, extract column names and value tokens via
the supplied collaborator functions, run the column loop, and emit the
`(original, transformed)` row pair handed to the consumer callback.
`Except.ok none` is a silent skip; `Except.error` is a Rust panic. -/
def processQuery (registry : String → Option Transformer)
    (get_column_names : List Token → List String)
    (get_column_values : List Token → List Token)
    (tokens : List Token) : Except String (Option (Row × Row)) :=
  if match_keyword_at_position .Insert tokens 0
      && match_keyword_at_position .Into tokens 2 then
    match get_word_value_at_position tokens 6 with
    | some table_name =>
      let column_names := get_column_names tokens
      let column_values := get_column_values tokens
      match processColumnsFrom registry table_name column_values 0 column_names with
      | .error e => .error e
      | .ok (original_columns, columns) =>
        .ok (some (⟨table_name, original_columns⟩, ⟨table_name, columns⟩))
    | none => .ok none
  else .ok none

/-- The statement loop driven by `list_queries_from_dump_reader`: run each
statement in stream order through `processQuery`, collecting the emitted
row pairs (the callback invocations, in order) until the list is exhausted
or a panic aborts the loop.  Returns the emitted pairs and the panic
message, if any. -/
def runQueries (registry : String → Option Transformer)
    (get_column_names : List Token → List String)
    (get_column_values : List Token → List Token)
    (tokenize : String → List Token) :
    List String → List (Row × Row) × Option String
  | [] => ([], none)
  | query :: rest =>
    match processQuery registry get_column_names get_column_values (tokenize query) with
    | .error e => ([], some e)
    | .ok none => runQueries registry get_column_names get_column_values tokenize rest
    | .ok (some pair) =>
      match runQueries registry get_column_names get_column_values tokenize rest with
      | (pairs, panicMsg) => (pair :: pairs, panicMsg)

/-- The connection fields of the `Postgres` struct. -/
structure PostgresConfig where
  host : String
  port : Nat
  database : String
  username : String
  password : String

/-- The observable shape of a spawned producer process: program name,
argument list, and extra environment entries. -/
structure ProcessSpec where
  program : String
  args : List String
  env : List (String × String)
deriving DecidableEq

/-- The `Command` built by `stream_rows` (postgres.rs lines 60-76):
`pg_dump` with `PGPASSWORD` in the environment and the connection
parameters as arguments. -/
def producerCommand (c : PostgresConfig) : ProcessSpec :=
  { program := "pg_dump"
  , args := ["--column-inserts", "-h", c.host, "-p", toString c.port,
             "-d", c.database, "-U", c.username]
  , env := [("PGPASSWORD", c.password)] }

/-- Exit status of the producer process. -/
inductive ExitStatus where
  | success
  | exitFailure (code : Int)
deriving DecidableEq

/-- Terminal outcome of a `stream_rows` invocation: `ok` models
`Ok(())`, `err` models a returned `Err(..)`, and `panicked` models a Rust
panic unwinding out of the method (the process crashes; no value is
returned to the caller). -/
inductive StreamResult where
  | ok
  | err (msg : String)
  | panicked (msg : String)
deriving DecidableEq

/-- True iff the outcome is a returned `Err(..)`. -/
def StreamResult.isErr : StreamResult → Bool
  | .err _ => true
  | _ => false

/-- True iff the outcome is a panic. -/
def StreamResult.isPanic : StreamResult → Bool
  | .panicked _ => true
  | _ => false

/-- Everything observable about one `stream_rows` invocation: the producer
process launched, the row pairs passed to the consumer callback in order,
and the terminal outcome. -/
structure StreamRun where
  producer : ProcessSpec
  pairs : List (Row × Row)
  result : StreamResult
deriving DecidableEq

/-- The whole `stream_rows` method (postgres.rs lines 53-194).  The dump
contents are abstracted as the statement list the splitter collaborator
yields (`queries`), an optional terminal I/O error of
`list_queries_from_dump_reader` (`readerError` — the source turns it into
a `panic!`, line 178), and the producer's exit status.  The extractor and
tokenizer collaborators are explicit parameters.  Spawn and
stdout-capture failures end the run before any statement; they are not
modelled here because no claim depends on them. -/
def stream_rows (cfg : PostgresConfig) (transformers : List Transformer)
    (get_column_names : List Token → List String)
    (get_column_values : List Token → List Token)
    (tokenize : String → List Token)
    (queries : List String) (readerError : Option String)
    (exitStatus : ExitStatus) : StreamRun :=
  let registry := transformer_by_table_and_column_name transformers
  match runQueries registry get_column_names get_column_values tokenize queries with
  | (pairs, some e) => ⟨producerCommand cfg, pairs, .panicked e⟩
  | (pairs, none) =>
    match readerError with
    | some e => ⟨producerCommand cfg, pairs, .panicked e⟩
    | none =>
      match exitStatus with
      | .success => ⟨producerCommand cfg, pairs, .ok⟩
      | .exitFailure code =>
        ⟨producerCommand cfg, pairs, .err ("command error: " ++ toString code)⟩

/-! Concrete fixtures used by witnesses and counterexamples: a token
sequence shaped like `INSERT INTO employees (..) VALUES (..)` as the
lexer tokenizes it (whitespace tokens at the odd positions), and small
extractor/tokenizer instantiations. -/

/-- Token sequence of a recognized insertion statement targeting table
`employees` (word at position 6, keywords at positions 0 and 2). -/
def exTokens : List Token :=
  [.Word "INSERT" .Insert, .Other, .Word "INTO" .Into, .Other,
   .Word "public" .NoKeyword, .Other, .Word "employees" .NoKeyword]

/-- Token sequence of a statement that is not an insertion (keyword test
at position 0 fails). -/
def exOtherTokens : List Token :=
  [.Word "CREATE" .NoKeyword, .Other, .Word "TABLE" .NoKeyword]

/-- Extractor instantiation: one declared column `last_name`. -/
def exNames : List Token → List String := fun _ => ["last_name"]

/-- Extractor instantiation: one string value `Doe`. -/
def exValues : List Token → List Token := fun _ => [.SingleQuotedString "Doe"]

/-- Tokenizer instantiation mapping every statement text to `exTokens`. -/
def exTokenize : String → List Token := fun _ => exTokens

/-- A connection configuration. -/
def exCfg : PostgresConfig := ⟨"localhost", 5432, "root", "root", "password"⟩

/-- A transformer for `employees.last_name` that replaces string values,
keeping the column name. -/
def exMasker : Transformer :=
  ⟨"employees.last_name", fun c =>
    match c with
    | .StringValue n _ => .StringValue n "XXX"
    | c => c⟩

example :
    stream_rows exCfg [exMasker] exNames exValues exTokenize ["q"] none .success
      = ⟨producerCommand exCfg,
         [(⟨"employees", [.StringValue "last_name" "Doe"]⟩,
           ⟨"employees", [.StringValue "last_name" "XXX"]⟩)],
         .ok⟩ := by decide

example :
    stream_rows exCfg [] exNames (fun _ => []) exTokenize ["q"] none .success
      = ⟨producerCommand exCfg, [], .panicked "called Option::unwrap() on a None value"⟩ := by
  decide

/-! Helper lemmas. -/

/-- Typing always stamps the given column name onto the produced column. -/
lemma inferColumn_name (column_name : String) (value_token : Token) (col : Column)
    (h : inferColumn column_name value_token = .ok col) : col.name = column_name := by
  unfold inferColumn at h
  cases value_token <;> simp only at h <;>
    first
    | (injection h with h; subst h; rfl)
    | (split at h <;> [skip; skip] <;> split at h <;>
        first
        | (injection h with h; subst h; rfl)
        | exact absurd h (by simp))

/-- Characterization of a successful column loop: the two column sequences
have the declared length, and at every index the original column is the
typed value token and the transformed column is its dispatch through the
registry under the `table.column` key. -/
lemma processColumnsFrom_ok (registry : String → Option Transformer) (table_name : String)
    (column_values : List Token) (column_names : List String) :
    ∀ (i : Nat) (os cs : List Column),
      processColumnsFrom registry table_name column_values i column_names = .ok (os, cs) →
      os.length = column_names.length ∧ cs.length = column_names.length ∧
      ∀ j name, column_names.get? j = some name →
        ∃ tok col, column_values.get? (i + j) = some tok ∧
          inferColumn name tok = .ok col ∧
          os.get? j = some col ∧
          cs.get? j = some (applyTransformer registry (table_name ++ "." ++ name) col) := by
  induction column_names with
  | nil =>
    intro i os cs h
    rw [processColumnsFrom] at h
    injection h with h
    injection h with h1 h2
    subst h1; subst h2
    exact ⟨rfl, rfl, by intro j name hj; simp at hj⟩
  | cons column_name rest ih =>
    intro i os cs h
    rw [processColumnsFrom] at h
    cases hv : column_values.get? i with
    | none => rw [hv] at h; exact absurd h (by simp)
    | some value_token =>
      rw [hv] at h
      dsimp only at h
      cases hic : inferColumn column_name value_token with
      | error e => rw [hic] at h; exact absurd h (by simp)
      | ok column =>
        rw [hic] at h
        dsimp only at h
        cases hrec : processColumnsFrom registry table_name column_values (i + 1) rest with
        | error e => rw [hrec] at h; exact absurd h (by simp)
        | ok p =>
          obtain ⟨os', cs'⟩ := p
          rw [hrec] at h
          dsimp only at h
          injection h with h
          injection h with h1 h2
          subst h1; subst h2
          obtain ⟨hl1, hl2, hpt⟩ := ih (i + 1) os' cs' hrec
          refine ⟨by simp [hl1], by simp [hl2], ?_⟩
          intro j name hj
          cases j with
          | zero =>
            injection hj with hj
            subst hj
            exact ⟨value_token, column, by simpa using hv, hic, rfl, rfl⟩
          | succ j =>
            simp only [List.get?] at hj
            obtain ⟨tok, col, h1, h2, h3, h4⟩ := hpt j name hj
            refine ⟨tok, col, ?_, h2, h3, h4⟩
            have : i + 1 + j = i + (j + 1) := by omega
            rw [← this]; exact h1

/-- The last transformer in a list declaring the given key, if any. -/
def lastWithKey (k : String) : List Transformer → Option Transformer
  | [] => none
  | t :: rest =>
    match lastWithKey k rest with
    | some u => some u
    | none => if t.table_and_column_name = k then some t else none

/-- The registry map denotes exactly "last inserted transformer for the
key wins": the fold of `HashMap::insert` over the list equals
`lastWithKey`. -/
lemma registry_eq_lastWithKey (transformers : List Transformer) (k : String) :
    transformer_by_table_and_column_name transformers k = lastWithKey k transformers := by
  suffices h : ∀ (ts : List Transformer) (m : String → Option Transformer),
      (ts.foldl (fun m transformer k =>
        if k = transformer.table_and_column_name then some transformer else m k) m) k
      = match lastWithKey k ts with
        | some u => some u
        | none => m k by
    have := h transformers (fun _ => none)
    rw [transformer_by_table_and_column_name, this]
    cases lastWithKey k transformers <;> rfl
  intro ts
  induction ts with
  | nil => intro m; rfl
  | cons t rest ih =>
    intro m
    rw [List.foldl_cons, ih]
    rw [lastWithKey]
    cases lastWithKey k rest with
    | some u => rfl
    | none =>
      simp only
      by_cases hk : t.table_and_column_name = k
      · rw [if_pos hk, if_pos hk.symm]
      · rw [if_neg hk, if_neg (fun hkk => hk hkk.symm)]

/-- A transformer the registry resolves to is a member of the supplied
list and declares the looked-up key. -/
lemma lastWithKey_mem (k : String) (ts : List Transformer) (t : Transformer)
    (h : lastWithKey k ts = some t) : t ∈ ts ∧ t.table_and_column_name = k := by
  induction ts with
  | nil => exact absurd h (by simp [lastWithKey])
  | cons a rest ih =>
    rw [lastWithKey] at h
    cases hrest : lastWithKey k rest with
    | some u =>
      rw [hrest] at h
      injection h with h
      subst h
      obtain ⟨h1, h2⟩ := ih hrest
      exact ⟨List.mem_cons_of_mem a h1, h2⟩
    | none =>
      rw [hrest] at h
      simp only at h
      split at h
      · injection h with h; subst h
        exact ⟨List.mem_cons_self a rest, by assumption⟩
      · exact absurd h (by simp)

/-- If no member of the list declares the key, `lastWithKey` is `none`. -/
lemma lastWithKey_eq_none (k : String) (ts : List Transformer)
    (h : ∀ u ∈ ts, u.table_and_column_name ≠ k) : lastWithKey k ts = none := by
  induction ts with
  | nil => rfl
  | cons a rest ih =>
    rw [lastWithKey]
    rw [ih (fun u hu => h u (List.mem_cons_of_mem a hu))]
    simp only
    rw [if_neg (h a (List.mem_cons_self a rest))]

/-- `lastWithKey` resolves to the last member declaring the key. -/
lemma lastWithKey_append (k : String) (l1 l2 : List Transformer) (t : Transformer)
    (hk : t.table_and_column_name = k)
    (hlast : ∀ u ∈ l2, u.table_and_column_name ≠ k) :
    lastWithKey k (l1 ++ t :: l2) = some t := by
  induction l1 with
  | nil =>
    rw [List.nil_append, lastWithKey, lastWithKey_eq_none k l2 hlast]
    simp only
    rw [if_pos hk]
  | cons a rest ih =>
    rw [List.cons_append, lastWithKey, ih]

/-- Every row pair the statement loop emits comes from some statement in
the stream that classified as an insertion and processed successfully. -/
lemma runQueries_mem (registry : String → Option Transformer)
    (get_column_names : List Token → List String)
    (get_column_values : List Token → List Token)
    (tokenize : String → List Token) (queries : List String) (pair : Row × Row)
    (h : pair ∈ (runQueries registry get_column_names get_column_values tokenize queries).1) :
    ∃ query ∈ queries,
      processQuery registry get_column_names get_column_values (tokenize query)
        = .ok (some pair) := by
  induction queries with
  | nil => exact absurd h (by simp [runQueries])
  | cons q rest ih =>
    rw [runQueries] at h
    cases hq : processQuery registry get_column_names get_column_values (tokenize q) with
    | error e => rw [hq] at h; exact absurd h (by simp)
    | ok emitted =>
      rw [hq] at h
      cases emitted with
      | none =>
        simp only at h
        obtain ⟨query, hmem, hpq⟩ := ih h
        exact ⟨query, List.mem_cons_of_mem q hmem, hpq⟩
      | some p =>
        simp only at h
        cases hrec : runQueries registry get_column_names get_column_values tokenize rest with
        | mk pairs panicMsg =>
          rw [hrec] at h
          rcases List.mem_cons.mp h with h1 | h1
          · subst h1; exact ⟨q, List.mem_cons_self q rest, hq⟩
          · obtain ⟨query, hmem, hpq⟩ := ih (by rw [hrec]; exact h1)
            exact ⟨query, List.mem_cons_of_mem q hmem, hpq⟩

/-- Inversion of a successful, emitting statement: the classification
tests passed and the column loop succeeded with the emitted columns. -/
lemma processQuery_ok_some (registry : String → Option Transformer)
    (get_column_names : List Token → List String)
    (get_column_values : List Token → List Token)
    (tokens : List Token) (pair : Row × Row)
    (h : processQuery registry get_column_names get_column_values tokens = .ok (some pair)) :
    (match_keyword_at_position .Insert tokens 0
      && match_keyword_at_position .Into tokens 2) = true ∧
    ∃ table_name, get_word_value_at_position tokens 6 = some table_name ∧
      pair.1.table_name = table_name ∧ pair.2.table_name = table_name ∧
      processColumnsFrom registry table_name (get_column_values tokens) 0
          (get_column_names tokens)
        = .ok (pair.1.columns, pair.2.columns) := by
  rw [processQuery] at h
  split at h
  case isFalse => exact absurd h (by simp)
  case isTrue hcond =>
    refine ⟨hcond, ?_⟩
    cases hw : get_word_value_at_position tokens 6 with
    | none => rw [hw] at h; exact absurd h (by simp)
    | some table_name =>
      rw [hw] at h
      simp only at h
      cases hpc : processColumnsFrom registry table_name (get_column_values tokens) 0
          (get_column_names tokens) with
      | error e => rw [hpc] at h; exact absurd h (by simp)
      | ok p =>
        obtain ⟨os, cs⟩ := p
        rw [hpc] at h
        dsimp only at h
        injection h with h
        injection h with h
        subst h
        exact ⟨table_name, rfl, rfl, rfl, hpc⟩

/-- The producer process of a run is always the `pg_dump` command built
from the configuration. -/
lemma stream_rows_producer (cfg : PostgresConfig) (transformers : List Transformer)
    (get_column_names : List Token → List String)
    (get_column_values : List Token → List Token)
    (tokenize : String → List Token) (queries : List String)
    (readerError : Option String) (exitStatus : ExitStatus) :
    (stream_rows cfg transformers get_column_names get_column_values tokenize
        queries readerError exitStatus).producer = producerCommand cfg := by
  rw [stream_rows]
  rcases runQueries (transformer_by_table_and_column_name transformers)
      get_column_names get_column_values tokenize queries with ⟨pairs, pm⟩
  cases pm <;> cases readerError <;> cases exitStatus <;> rfl

/-- The row pairs of a run are exactly the pairs the statement loop
emits. -/
lemma stream_rows_pairs (cfg : PostgresConfig) (transformers : List Transformer)
    (get_column_names : List Token → List String)
    (get_column_values : List Token → List Token)
    (tokenize : String → List Token) (queries : List String)
    (readerError : Option String) (exitStatus : ExitStatus) :
    (stream_rows cfg transformers get_column_names get_column_values tokenize
        queries readerError exitStatus).pairs
      = (runQueries (transformer_by_table_and_column_name transformers)
          get_column_names get_column_values tokenize queries).1 := by
  rw [stream_rows]
  rcases runQueries (transformer_by_table_and_column_name transformers)
      get_column_names get_column_values tokenize queries with ⟨pairs, pm⟩
  cases pm <;> cases readerError <;> cases exitStatus <;> rfl

/-- The row pair one statement emits, if it classified as an insertion and
processed without a panic. -/
def emittedPair : Except String (Option (Row × Row)) → Option (Row × Row)
  | .ok p => p
  | .error _ => none

/-- When no statement panics, the statement loop emits exactly one row
pair per recognized insertion, in stream order. -/
lemma runQueries_nopanic (registry : String → Option Transformer)
    (get_column_names : List Token → List String)
    (get_column_values : List Token → List Token)
    (tokenize : String → List Token) (queries : List String)
    (h : (runQueries registry get_column_names get_column_values tokenize queries).2 = none) :
    (runQueries registry get_column_names get_column_values tokenize queries).1
      = queries.filterMap (fun query =>
          emittedPair (processQuery registry get_column_names get_column_values
            (tokenize query))) := by
  induction queries with
  | nil => rfl
  | cons q rest ih =>
    rw [runQueries] at h ⊢
    cases hq : processQuery registry get_column_names get_column_values (tokenize q) with
    | error e => rw [hq] at h; exact absurd h (by simp)
    | ok emitted =>
      rw [hq] at h
      cases emitted with
      | none =>
        dsimp only at h ⊢
        simp only [List.filterMap_cons]
        rw [hq]
        exact ih h
      | some p =>
        dsimp only at h ⊢
        cases hrec : runQueries registry get_column_names get_column_values tokenize rest with
        | mk pairs panicMsg =>
          rw [hrec] at h
          dsimp only at h
          simp only [List.filterMap_cons]
          rw [hq]
          have hpre := ih (by rw [hrec]; exact h)
          rw [hrec] at hpre
          dsimp only at hpre
          show p :: pairs = p :: List.filterMap _ rest
          rw [hpre]

/-- A nonempty column-name list with fewer value tokens than names can
never complete the column loop: the `unwrap` of a missing value (or an
earlier numeric-parse `unwrap`) always aborts it. -/
lemma processColumnsFrom_short (registry : String → Option Transformer) (table_name : String)
    (column_values : List Token) :
    ∀ (column_names : List String) (i : Nat), column_names ≠ [] →
      column_values.length < i + column_names.length →
      ∃ msg, processColumnsFrom registry table_name column_values i column_names
        = .error msg := by
  intro column_names
  induction column_names with
  | nil => intro i hne; exact absurd rfl hne
  | cons column_name rest ih =>
    intro i _ hlen
    rw [processColumnsFrom]
    cases hv : column_values.get? i with
    | none => exact ⟨_, rfl⟩
    | some value_token =>
      dsimp only
      cases hic : inferColumn column_name value_token with
      | error e => exact ⟨e, rfl⟩
      | ok column =>
        dsimp only
        have hi : i < column_values.length := by
          by_contra hcon
          exact absurd hv (by rw [List.get?_eq_none.mpr (by omega)]; simp)
        have hne : rest ≠ [] := by
          intro hr
          subst hr
          simp only [List.length_cons, List.length_nil] at hlen
          omega
        obtain ⟨msg, hmsg⟩ := ih (i + 1) hne (by simp only [List.length_cons] at hlen ⊢; omega)
        rw [hmsg]
        exact ⟨msg, rfl⟩

/-- When every supplied transformer preserves column names, registry
dispatch preserves the column name. -/
lemma applyTransformer_name (transformers : List Transformer)
    (hname : ∀ t ∈ transformers, ∀ c, (t.transform c).name = c.name)
    (key : String) (col : Column) :
    (applyTransformer (transformer_by_table_and_column_name transformers) key col).name
      = col.name := by
  rw [applyTransformer]
  cases hreg : transformer_by_table_and_column_name transformers key with
  | none => rfl
  | some t =>
    rw [registry_eq_lastWithKey] at hreg
    exact hname t (lastWithKey_mem key transformers t hreg).1 col

/-- For every emitted row pair, the transformed column at an index is the
original column at that index dispatched through the registry under its
`table.column` key. -/
lemma pair_transformed_at (cfg : PostgresConfig) (transformers : List Transformer)
    (get_column_names : List Token → List String)
    (get_column_values : List Token → List Token)
    (tokenize : String → List Token) (queries : List String)
    (readerError : Option String) (exitStatus : ExitStatus) (pair : Row × Row)
    (i : Nat) (oc : Column)
    (hmem : pair ∈ (stream_rows cfg transformers get_column_names get_column_values
        tokenize queries readerError exitStatus).pairs)
    (ho : pair.1.columns.get? i = some oc) :
    pair.2.columns.get? i
      = some (applyTransformer (transformer_by_table_and_column_name transformers)
          (pair.1.table_name ++ "." ++ oc.name) oc) := by
  rw [stream_rows_pairs] at hmem
  obtain ⟨query, _, hpq⟩ := runQueries_mem _ _ _ _ _ _ hmem
  obtain ⟨_, table_name, _, ht1, _, hpc⟩ := processQuery_ok_some _ _ _ _ _ hpq
  obtain ⟨hl1, _, hpt⟩ := processColumnsFrom_ok _ _ _ _ 0 _ _ hpc
  cases hn : (get_column_names (tokenize query)).get? i with
  | none =>
    obtain ⟨hlt, _⟩ := List.get?_eq_some.mp ho
    have hle := List.get?_eq_none.mp hn
    exfalso
    omega
  | some name =>
    obtain ⟨tok, col, _, hic, hoc, htc⟩ := hpt i name hn
    rw [ho] at hoc
    injection hoc with hoc
    subst hoc
    rw [htc, ht1, inferColumn_name name tok oc hic]

/-- A transformer registered for `employees.last_name` that renames the
column it receives: legal for a `Transformer` implementation, whose
contract does not enforce name preservation. -/
def exRenamer : Transformer := ⟨"employees.last_name", fun _ => Column.None "zzz"⟩

/-- A second transformer for the key `employees.last_name`, distinguishable
from `exMasker` by the replacement value it writes. -/
def exMasker2 : Transformer :=
  ⟨"employees.last_name", fun c =>
    match c with
    | .StringValue n _ => .StringValue n "YYY"
    | c => c⟩

/-- The row pair emitted in the `exMasker` scenario. -/
def exPair : Row × Row :=
  (⟨"employees", [.StringValue "last_name" "Doe"]⟩,
   ⟨"employees", [.StringValue "last_name" "XXX"]⟩)

/-- C1: the claim as stated is false: a transformer may rename the column
it transforms, and then an emitted row pair has different column names at
index 0 ("last_name" against "zzz"). -/
theorem C1_counterexample :
    ((stream_rows exCfg [exRenamer] exNames exValues exTokenize ["q"] none .success).pairs.map
        (fun pair => (pair.1.columns.map Column.name, pair.2.columns.map Column.name)))
      = [(["last_name"], ["zzz"])]
    ∧ ("last_name" : String) ≠ "zzz" := by decide

/-- C1 (amended): for every row pair passed to the consumer callback by
`stream_rows`, the original and the transformed row have the same
table name and column sequences of identical length; and, provided every
supplied transformer preserves the name of the column it transforms, the
column at every index `j` of the original row has the same name as the
column at `j` of the transformed row. -/
theorem C1_row_pairing (cfg : PostgresConfig) (transformers : List Transformer)
    (get_column_names : List Token → List String)
    (get_column_values : List Token → List Token)
    (tokenize : String → List Token) (queries : List String)
    (readerError : Option String) (exitStatus : ExitStatus) (pair : Row × Row)
    (hmem : pair ∈ (stream_rows cfg transformers get_column_names get_column_values
        tokenize queries readerError exitStatus).pairs) :
    pair.1.table_name = pair.2.table_name ∧
    pair.1.columns.length = pair.2.columns.length ∧
    ((∀ t ∈ transformers, ∀ c, (t.transform c).name = c.name) →
      ∀ j, (pair.1.columns.get? j).map Column.name
        = (pair.2.columns.get? j).map Column.name) := by
  rw [stream_rows_pairs] at hmem
  obtain ⟨query, _, hpq⟩ := runQueries_mem _ _ _ _ _ _ hmem
  obtain ⟨_, table_name, _, ht1, ht2, hpc⟩ := processQuery_ok_some _ _ _ _ _ hpq
  obtain ⟨hl1, hl2, hpt⟩ := processColumnsFrom_ok _ _ _ _ 0 _ _ hpc
  refine ⟨ht1.trans ht2.symm, hl1.trans hl2.symm, ?_⟩
  intro hname j
  cases hn : (get_column_names (tokenize query)).get? j with
  | none =>
    have hle := List.get?_eq_none.mp hn
    rw [List.get?_eq_none.mpr (by omega), List.get?_eq_none.mpr (by omega)]
  | some name =>
    obtain ⟨tok, col, _, hic, hoc, htc⟩ := hpt j name hn
    rw [hoc, htc]
    dsimp only [Option.map]
    rw [applyTransformer_name transformers hname]

/-- C1 witness: in the `exMasker` scenario the emitted pair satisfies the
pairing invariant. -/
theorem C1_row_pairing_witness :
    exPair.1.table_name = exPair.2.table_name ∧
    exPair.1.columns.length = exPair.2.columns.length ∧
    ((∀ t ∈ [exMasker], ∀ c, (t.transform c).name = c.name) →
      ∀ j, (exPair.1.columns.get? j).map Column.name
        = (exPair.2.columns.get? j).map Column.name) :=
  C1_row_pairing exCfg [exMasker] exNames exValues exTokenize ["q"] none .success exPair
    (by decide)

/-- C2: a column whose `table.column` key resolves to no transformer in
the registry built from the supplied transformer list passes through to
the transformed row unchanged. -/
theorem C2_passthrough (cfg : PostgresConfig) (transformers : List Transformer)
    (get_column_names : List Token → List String)
    (get_column_values : List Token → List Token)
    (tokenize : String → List Token) (queries : List String)
    (readerError : Option String) (exitStatus : ExitStatus) (pair : Row × Row)
    (i : Nat) (oc : Column)
    (hmem : pair ∈ (stream_rows cfg transformers get_column_names get_column_values
        tokenize queries readerError exitStatus).pairs)
    (ho : pair.1.columns.get? i = some oc)
    (hreg : transformer_by_table_and_column_name transformers
        (pair.1.table_name ++ "." ++ oc.name) = none) :
    pair.2.columns.get? i = some oc := by
  rw [pair_transformed_at cfg transformers get_column_names get_column_values tokenize
    queries readerError exitStatus pair i oc hmem ho]
  rw [applyTransformer, hreg]

/-- C2 witness: with no transformer supplied, the `last_name` column
passes through unchanged. -/
theorem C2_passthrough_witness :
    (⟨"employees", [Column.StringValue "last_name" "Doe"]⟩ : Row).columns.get? 0
      = some (Column.StringValue "last_name" "Doe") :=
  C2_passthrough exCfg [] exNames exValues exTokenize ["q"] none .success
    (⟨"employees", [.StringValue "last_name" "Doe"]⟩,
     ⟨"employees", [.StringValue "last_name" "Doe"]⟩)
    0 (.StringValue "last_name" "Doe") (by decide) (by decide) rfl

/-- Any successfully parsed wide integer lies in the signed 128-bit
range. -/
lemma parseI128_range (s : String) (n : Int) (h : parseI128 s = some n) :
    i128Min ≤ n ∧ n ≤ i128Max := by
  rw [parseI128] at h
  dsimp only at h
  split at h
  · split at h
    · injection h with h
      subst h
      assumption
    · exact absurd h (by simp)
  · exact absurd h (by simp)

/-- C3: value typing is the stated pure function of the (column name,
value token) pair: a dotted numeric token types as a float (with the
parsed value), an undotted one as a wide signed integer in the full
i128 range (beyond 64-bit: 2^64 parses), a character token as a char, the
three quoted-string token families as verbatim strings, and every other
token kind as `None` carrying the column name. -/
theorem C3_value_typing (name s : String) (b : Bool) (c : Char) (v : String) (k : Keyword) :
    (∀ q, s.data.contains '.' = true → parseF64 s = some q →
      inferColumn name (Token.Number s b) = .ok (.FloatNumberValue name q)) ∧
    (∀ n, s.data.contains '.' = false → parseI128 s = some n →
      inferColumn name (Token.Number s b) = .ok (.NumberValue name n)) ∧
    (∀ n, parseI128 s = some n → i128Min ≤ n ∧ n ≤ i128Max) ∧
    (inferColumn name (Token.Number "18446744073709551616" b)
      = .ok (.NumberValue name 18446744073709551616)) ∧
    (inferColumn name (Token.Char c) = .ok (.CharValue name c)) ∧
    (inferColumn name (Token.SingleQuotedString s) = .ok (.StringValue name s)) ∧
    (inferColumn name (Token.NationalStringLiteral s) = .ok (.StringValue name s)) ∧
    (inferColumn name (Token.HexStringLiteral s) = .ok (.StringValue name s)) ∧
    (inferColumn name (Token.Word v k) = .ok (.None name)) ∧
    (inferColumn name Token.Other = .ok (.None name)) := by
  refine ⟨?_, ?_, ?_, ?_, rfl, rfl, rfl, rfl, rfl, rfl⟩
  · intro q hdot hq
    rw [inferColumn]
    rw [if_pos hdot, hq]
  · intro n hdot hn
    rw [inferColumn]
    rw [if_neg (by rw [hdot]; simp), hn]
  · intro n hn
    exact parseI128_range s n hn
  · have hd : ("18446744073709551616".data.contains '.') = false := by decide
    rw [inferColumn, if_neg (by rw [hd]; simp)]
    have hp : parseI128 "18446744073709551616" = some 18446744073709551616 := by decide
    rw [hp]

/-- C3 witness: the numeric boundary scenario: "123" types as the integer
123, "1.50" as the float 3/2, a char token as that char. -/
theorem C3_value_typing_witness :
    inferColumn "qty" (Token.Number "123" false) = .ok (.NumberValue "qty" 123) ∧
    inferColumn "price" (Token.Number "1.50" false)
      = .ok (.FloatNumberValue "price" (mkRat 3 2)) ∧
    inferColumn "initial" (Token.Char 'c') = .ok (.CharValue "initial" 'c') :=
  ⟨(C3_value_typing "qty" "123" false 'c' "w" .NoKeyword).2.1 123 (by decide) (by decide),
   (C3_value_typing "price" "1.50" false 'c' "w" .NoKeyword).1 (mkRat 3 2)
     (by decide) (by decide),
   (C3_value_typing "initial" "123" false 'c' "w" .NoKeyword).2.2.2.2.1⟩

/-- A panic inside the statement-loop closure surfaces as the `panicked`
terminal outcome of the whole run (the `panic!` re-raise at postgres.rs
line 178 turned into a crash, not a returned error). -/
lemma stream_rows_result_panicked (cfg : PostgresConfig) (transformers : List Transformer)
    (get_column_names : List Token → List String)
    (get_column_values : List Token → List Token)
    (tokenize : String → List Token) (queries : List String)
    (readerError : Option String) (exitStatus : ExitStatus) (msg : String)
    (h : (runQueries (transformer_by_table_and_column_name transformers)
        get_column_names get_column_values tokenize queries).2 = some msg) :
    (stream_rows cfg transformers get_column_names get_column_values tokenize
        queries readerError exitStatus).result = .panicked msg := by
  rw [stream_rows]
  rcases hrq : runQueries (transformer_by_table_and_column_name transformers)
      get_column_names get_column_values tokenize queries with ⟨pairs, pm⟩
  rw [hrq] at h
  dsimp only at h
  subst h
  rfl

/-- Value-token extractor yielding no tokens, for the length-mismatch
scenario. -/
def exNoValues : List Token → List Token := fun _ => []

/-- Value-token extractor yielding the unparsable numeric token `.`. -/
def exDotValues : List Token → List Token := fun _ => [.Number "." false]

/-- Tokenizer instantiation mapping every statement to the non-insertion
token sequence. -/
def exTokenize2 : String → List Token := fun _ => exOtherTokens

/-- C4: the claim as stated is false in its propagation clause: on a
column/value length mismatch the run ends in a panic (a crash of the
process), not in a returned terminal failure (`isErr` is `false`); the
statement does fail without emitting a phantom row. -/
theorem C4_counterexample :
    (stream_rows exCfg [] exNames exNoValues exTokenize ["q"] none .success).pairs = [] ∧
    (stream_rows exCfg [] exNames exNoValues exTokenize ["q"] none .success).result
      = .panicked "called Option::unwrap() on a None value" ∧
    (stream_rows exCfg [] exNames exNoValues exTokenize ["q"] none .success).result.isErr
      = false := by decide

/-- C4 (amended): when the extracted value-token sequence is shorter than
the column-name sequence of a classified insertion, the lookup of the
value at a missing index fails the current statement (no phantom column,
no row pair is emitted for it), and the violation aborts the whole stream
as a panic — an unrecoverable crash, not a returned terminal failure. -/
theorem C4_length_mismatch_panics (cfg : PostgresConfig) (transformers : List Transformer)
    (get_column_names : List Token → List String)
    (get_column_values : List Token → List Token)
    (tokenize : String → List Token) (q : String) (tokens : List Token)
    (readerError : Option String) (exitStatus : ExitStatus) (table_name : String)
    (htok : tokenize q = tokens)
    (hcls : (match_keyword_at_position .Insert tokens 0
        && match_keyword_at_position .Into tokens 2) = true)
    (hword : get_word_value_at_position tokens 6 = some table_name)
    (hlen : (get_column_values tokens).length < (get_column_names tokens).length) :
    ∃ msg,
      processQuery (transformer_by_table_and_column_name transformers)
        get_column_names get_column_values tokens = .error msg ∧
      (stream_rows cfg transformers get_column_names get_column_values tokenize
          [q] readerError exitStatus).pairs = [] ∧
      (stream_rows cfg transformers get_column_names get_column_values tokenize
          [q] readerError exitStatus).result = .panicked msg := by
  have hne : get_column_names tokens ≠ [] := by
    intro h0
    rw [h0] at hlen
    simp at hlen
  obtain ⟨msg, hmsg⟩ := processColumnsFrom_short
    (transformer_by_table_and_column_name transformers) table_name
    (get_column_values tokens) (get_column_names tokens) 0 hne (by simpa using hlen)
  have hpq : processQuery (transformer_by_table_and_column_name transformers)
      get_column_names get_column_values tokens = .error msg := by
    rw [processQuery, if_pos hcls, hword]
    dsimp only
    rw [hmsg]
  have hrun : runQueries (transformer_by_table_and_column_name transformers)
      get_column_names get_column_values tokenize [q] = ([], some msg) := by
    rw [runQueries, htok, hpq]
  refine ⟨msg, hpq, ?_, ?_⟩
  · rw [stream_rows_pairs, hrun]
  · exact stream_rows_result_panicked cfg transformers get_column_names get_column_values
      tokenize [q] readerError exitStatus msg (by rw [hrun])

/-- C4 witness: one declared column and zero extracted values abort the
concrete run with the unwrap panic. -/
theorem C4_length_mismatch_panics_witness :
    ∃ msg,
      processQuery (transformer_by_table_and_column_name []) exNames exNoValues exTokens
        = .error msg ∧
      (stream_rows exCfg [] exNames exNoValues exTokenize ["q"] none .success).pairs = [] ∧
      (stream_rows exCfg [] exNames exNoValues exTokenize ["q"] none .success).result
        = .panicked msg :=
  C4_length_mismatch_panics exCfg [] exNames exNoValues exTokenize "q" exTokens
    none .success "employees" rfl (by decide) (by decide) (by decide)

/-- C5: the claim as stated is false: an unparsable numeric token (the
token text `.` contains a dot but is not a valid float) does not surface
as a returned failure of the row or the stream (`isErr` is `false`); it
panics, crashing the whole program. -/
theorem C5_counterexample :
    inferColumn "last_name" (Token.Number "." false)
      = .error "called Result::unwrap() on an Err value" ∧
    (stream_rows exCfg [] exNames exDotValues exTokenize ["q"] none .success).result
      = .panicked "called Result::unwrap() on an Err value" ∧
    (stream_rows exCfg [] exNames exDotValues exTokenize ["q"] none .success).result.isErr
      = false := by decide

/-- C5 (amended): when a numeric token fails to parse as a float (dotted)
or as a wide signed integer (undotted), the `unwrap` on the parse result
panics: the whole stream aborts as a crash of the program, with no row
emitted for the statement and no returned error. -/
theorem C5_parse_failure_panics (cfg : PostgresConfig) (transformers : List Transformer)
    (get_column_names : List Token → List String)
    (get_column_values : List Token → List Token)
    (tokenize : String → List Token) (q : String) (tokens : List Token)
    (readerError : Option String) (exitStatus : ExitStatus)
    (table_name name s : String) (b : Bool)
    (htok : tokenize q = tokens)
    (hcls : (match_keyword_at_position .Insert tokens 0
        && match_keyword_at_position .Into tokens 2) = true)
    (hword : get_word_value_at_position tokens 6 = some table_name)
    (hgcn : get_column_names tokens = [name])
    (hgcv : get_column_values tokens = [Token.Number s b])
    (hfail : (s.data.contains '.' = true ∧ parseF64 s = none)
        ∨ (s.data.contains '.' = false ∧ parseI128 s = none)) :
    inferColumn name (Token.Number s b) = .error "called Result::unwrap() on an Err value" ∧
    (stream_rows cfg transformers get_column_names get_column_values tokenize
        [q] readerError exitStatus).pairs = [] ∧
    (stream_rows cfg transformers get_column_names get_column_values tokenize
        [q] readerError exitStatus).result
      = .panicked "called Result::unwrap() on an Err value" ∧
    (stream_rows cfg transformers get_column_names get_column_values tokenize
        [q] readerError exitStatus).result.isErr = false := by
  have hinf : inferColumn name (Token.Number s b)
      = .error "called Result::unwrap() on an Err value" := by
    rw [inferColumn]
    rcases hfail with ⟨hdot, hpf⟩ | ⟨hdot, hpi⟩
    · rw [if_pos hdot, hpf]
    · rw [if_neg (by rw [hdot]; simp), hpi]
  have hpc : processColumnsFrom (transformer_by_table_and_column_name transformers)
      table_name (get_column_values tokens) 0 (get_column_names tokens)
      = .error "called Result::unwrap() on an Err value" := by
    rw [hgcn, hgcv, processColumnsFrom]
    dsimp only [List.get?]
    rw [hinf]
  have hpq : processQuery (transformer_by_table_and_column_name transformers)
      get_column_names get_column_values tokens
      = .error "called Result::unwrap() on an Err value" := by
    rw [processQuery, if_pos hcls, hword]
    dsimp only
    rw [hpc]
  have hrun : runQueries (transformer_by_table_and_column_name transformers)
      get_column_names get_column_values tokenize [q]
      = ([], some "called Result::unwrap() on an Err value") := by
    rw [runQueries, htok, hpq]
  have hres := stream_rows_result_panicked cfg transformers get_column_names
    get_column_values tokenize [q] readerError exitStatus
    "called Result::unwrap() on an Err value" (by rw [hrun])
  refine ⟨hinf, ?_, hres, ?_⟩
  · rw [stream_rows_pairs, hrun]
  · rw [hres]
    rfl

/-- C5 witness: the concrete unparsable numeric token `.` panics the
concrete run. -/
theorem C5_parse_failure_panics_witness :
    inferColumn "last_name" (Token.Number "." false)
      = .error "called Result::unwrap() on an Err value" ∧
    (stream_rows exCfg [] exNames exDotValues exTokenize ["q"] none .success).pairs = [] ∧
    (stream_rows exCfg [] exNames exDotValues exTokenize ["q"] none .success).result
      = .panicked "called Result::unwrap() on an Err value" ∧
    (stream_rows exCfg [] exNames exDotValues exTokenize ["q"] none .success).result.isErr
      = false :=
  C5_parse_failure_panics exCfg [] exNames exDotValues exTokenize "q" exTokens
    none .success "employees" "last_name" "." false rfl (by decide) (by decide)
    (by decide) (by decide) (Or.inl ⟨by decide, by decide⟩)

/-- C6: a statement whose token sequence fails the INSERT-at-0 / INTO-at-2
test, or has no word value at position 6, produces zero callback
invocations, no error, and the stream continues with the remaining
statements exactly as if the statement were absent. -/
theorem C6_non_insertion_skip (cfg : PostgresConfig) (transformers : List Transformer)
    (get_column_names : List Token → List String)
    (get_column_values : List Token → List Token)
    (tokenize : String → List Token) (q : String) (tokens : List Token)
    (rest : List String) (readerError : Option String) (exitStatus : ExitStatus)
    (htok : tokenize q = tokens)
    (hnot : (match_keyword_at_position .Insert tokens 0
        && match_keyword_at_position .Into tokens 2) = false
      ∨ get_word_value_at_position tokens 6 = none) :
    processQuery (transformer_by_table_and_column_name transformers)
      get_column_names get_column_values tokens = .ok none ∧
    stream_rows cfg transformers get_column_names get_column_values tokenize
        (q :: rest) readerError exitStatus
      = stream_rows cfg transformers get_column_names get_column_values tokenize
          rest readerError exitStatus := by
  have hpq : processQuery (transformer_by_table_and_column_name transformers)
      get_column_names get_column_values tokens = .ok none := by
    rw [processQuery]
    rcases hnot with hnot | hnot
    · rw [if_neg (by rw [hnot]; simp)]
    · split
      · rw [hnot]
      · rfl
  have hrun : runQueries (transformer_by_table_and_column_name transformers)
      get_column_names get_column_values tokenize (q :: rest)
      = runQueries (transformer_by_table_and_column_name transformers)
          get_column_names get_column_values tokenize rest := by
    rw [runQueries, htok, hpq]
  refine ⟨hpq, ?_⟩
  rw [stream_rows, stream_rows, hrun]

/-- C6 witness: a `CREATE TABLE`-shaped statement is skipped and the
stream is the same as the empty stream. -/
theorem C6_non_insertion_skip_witness :
    processQuery (transformer_by_table_and_column_name []) exNames exValues exOtherTokens
      = .ok none ∧
    stream_rows exCfg [] exNames exValues exTokenize2 ["weird"] none .success
      = stream_rows exCfg [] exNames exValues exTokenize2 [] none .success :=
  C6_non_insertion_skip exCfg [] exNames exValues exTokenize2 "weird" exOtherTokens
    [] none .success rfl (Or.inl (by decide))

/-- C7: when no statement panics and the producer exits non-zero, the run
has passed the callback exactly the recognized insertions, one pair each
in stream order, and its terminal outcome is the exit-failure error — it
never returns success while withholding the failure. -/
theorem C7_exit_failure_reporting (cfg : PostgresConfig) (transformers : List Transformer)
    (get_column_names : List Token → List String)
    (get_column_values : List Token → List Token)
    (tokenize : String → List Token) (queries : List String) (code : Int)
    (hnopanic : (runQueries (transformer_by_table_and_column_name transformers)
        get_column_names get_column_values tokenize queries).2 = none) :
    (stream_rows cfg transformers get_column_names get_column_values tokenize
        queries none (.exitFailure code)).pairs
      = queries.filterMap (fun query =>
          emittedPair (processQuery (transformer_by_table_and_column_name transformers)
            get_column_names get_column_values (tokenize query))) ∧
    (stream_rows cfg transformers get_column_names get_column_values tokenize
        queries none (.exitFailure code)).result
      = .err ("command error: " ++ toString code) := by
  constructor
  · rw [stream_rows_pairs]
    exact runQueries_nopanic _ _ _ _ _ hnopanic
  · rw [stream_rows]
    dsimp only
    rcases hrq : runQueries (transformer_by_table_and_column_name transformers)
        get_column_names get_column_values tokenize queries with ⟨pairs, pm⟩
    rw [hrq] at hnopanic
    dsimp only at hnopanic
    subst hnopanic
    rfl

/-- C7 witness: a one-insertion stream with a failing producer yields the
one pair and the exit-failure error. -/
theorem C7_exit_failure_reporting_witness :
    (stream_rows exCfg [exMasker] exNames exValues exTokenize ["q"] none
        (.exitFailure 1)).pairs
      = ["q"].filterMap (fun query =>
          emittedPair (processQuery (transformer_by_table_and_column_name [exMasker])
            exNames exValues (exTokenize query))) ∧
    (stream_rows exCfg [exMasker] exNames exValues exTokenize ["q"] none
        (.exitFailure 1)).result
      = .err ("command error: " ++ toString (1 : Int)) :=
  C7_exit_failure_reporting exCfg [exMasker] exNames exValues exTokenize ["q"] 1
    (by decide)

/-- C8: with several transformers declaring the same `table.column` key,
the registry resolves the key to the last of them in list order, silently,
and every emitted column whose key matches is transformed by that last
transformer only. -/
theorem C8_duplicate_key_last_wins (l1 l2 : List Transformer) (t : Transformer) (k : String)
    (hdup : ∃ u ∈ l1, u.table_and_column_name = k)
    (hk : t.table_and_column_name = k)
    (hlast : ∀ u ∈ l2, u.table_and_column_name ≠ k) :
    transformer_by_table_and_column_name (l1 ++ t :: l2) k = some t ∧
    ∀ (cfg : PostgresConfig) (get_column_names : List Token → List String)
      (get_column_values : List Token → List Token) (tokenize : String → List Token)
      (queries : List String) (readerError : Option String) (exitStatus : ExitStatus)
      (pair : Row × Row) (i : Nat) (oc : Column),
      pair ∈ (stream_rows cfg (l1 ++ t :: l2) get_column_names get_column_values
          tokenize queries readerError exitStatus).pairs →
      pair.1.columns.get? i = some oc →
      pair.1.table_name ++ "." ++ oc.name = k →
      pair.2.columns.get? i = some (t.transform oc) := by
  have hreg : transformer_by_table_and_column_name (l1 ++ t :: l2) k = some t := by
    rw [registry_eq_lastWithKey]
    exact lastWithKey_append k l1 l2 t hk hlast
  refine ⟨hreg, ?_⟩
  intro cfg get_column_names get_column_values tokenize queries readerError exitStatus
    pair i oc hmem ho hkey
  rw [pair_transformed_at cfg (l1 ++ t :: l2) get_column_names get_column_values
    tokenize queries readerError exitStatus pair i oc hmem ho]
  rw [applyTransformer, hkey, hreg]

/-- C8 witness: `exMasker2`, registered after `exMasker` for the same key,
wins the registry and transforms every matching column. -/
theorem C8_duplicate_key_last_wins_witness :
    transformer_by_table_and_column_name [exMasker, exMasker2] "employees.last_name"
      = some exMasker2 ∧
    ∀ (cfg : PostgresConfig) (get_column_names : List Token → List String)
      (get_column_values : List Token → List Token) (tokenize : String → List Token)
      (queries : List String) (readerError : Option String) (exitStatus : ExitStatus)
      (pair : Row × Row) (i : Nat) (oc : Column),
      pair ∈ (stream_rows cfg [exMasker, exMasker2] get_column_names get_column_values
          tokenize queries readerError exitStatus).pairs →
      pair.1.columns.get? i = some oc →
      pair.1.table_name ++ "." ++ oc.name = "employees.last_name" →
      pair.2.columns.get? i = some (exMasker2.transform oc) :=
  C8_duplicate_key_last_wins [exMasker] [] exMasker2 "employees.last_name"
    ⟨exMasker, by simp, rfl⟩ rfl (by simp)

/-- C9: every invocation of `stream_rows` launches `pg_dump` with host,
port, database and username as command-line arguments and the password
only in the `PGPASSWORD` environment variable; the argument list does not
depend on the password. -/
theorem C9_password_via_env (cfg : PostgresConfig) (transformers : List Transformer)
    (get_column_names : List Token → List String)
    (get_column_values : List Token → List Token)
    (tokenize : String → List Token) (queries : List String)
    (readerError : Option String) (exitStatus : ExitStatus) :
    (stream_rows cfg transformers get_column_names get_column_values tokenize
        queries readerError exitStatus).producer
      = { program := "pg_dump"
        , args := ["--column-inserts", "-h", cfg.host, "-p", toString cfg.port,
                   "-d", cfg.database, "-U", cfg.username]
        , env := [("PGPASSWORD", cfg.password)] } ∧
    ∀ pw : String,
      (stream_rows ⟨cfg.host, cfg.port, cfg.database, cfg.username, pw⟩ transformers
          get_column_names get_column_values tokenize queries readerError
          exitStatus).producer.args
        = (stream_rows cfg transformers get_column_names get_column_values tokenize
            queries readerError exitStatus).producer.args := by
  constructor
  · rw [stream_rows_producer]
    rfl
  · intro pw
    rw [stream_rows_producer, stream_rows_producer]
    rfl

/-- Column-name extractor yielding no columns. -/
def exNoNames : List Token → List String := fun _ => []

/-- C10: a classified insertion whose extracted column-name list is empty
still emits exactly one row pair, both rows carrying the extracted table
name and an empty column sequence. -/
theorem C10_empty_column_list (cfg : PostgresConfig) (transformers : List Transformer)
    (get_column_names : List Token → List String)
    (get_column_values : List Token → List Token)
    (tokenize : String → List Token) (q : String) (tokens : List Token)
    (table_name : String)
    (htok : tokenize q = tokens)
    (hcls : (match_keyword_at_position .Insert tokens 0
        && match_keyword_at_position .Into tokens 2) = true)
    (hword : get_word_value_at_position tokens 6 = some table_name)
    (hempty : get_column_names tokens = []) :
    processQuery (transformer_by_table_and_column_name transformers)
      get_column_names get_column_values tokens
      = .ok (some (⟨table_name, []⟩, ⟨table_name, []⟩)) ∧
    (stream_rows cfg transformers get_column_names get_column_values tokenize
        [q] none .success).pairs
      = [(⟨table_name, []⟩, ⟨table_name, []⟩)] := by
  have hpq : processQuery (transformer_by_table_and_column_name transformers)
      get_column_names get_column_values tokens
      = .ok (some (⟨table_name, []⟩, ⟨table_name, []⟩)) := by
    rw [processQuery, if_pos hcls, hword]
    dsimp only
    rw [hempty, processColumnsFrom]
  refine ⟨hpq, ?_⟩
  rw [stream_rows_pairs, runQueries, htok, hpq]
  dsimp only
  rw [runQueries]

/-- C10 witness: an empty extracted column list emits one empty-column row
pair for table `employees`. -/
theorem C10_empty_column_list_witness :
    processQuery (transformer_by_table_and_column_name []) exNoNames exValues exTokens
      = .ok (some (⟨"employees", []⟩, ⟨"employees", []⟩)) ∧
    (stream_rows exCfg [] exNoNames exValues exTokenize ["q"] none .success).pairs
      = [(⟨"employees", []⟩, ⟨"employees", []⟩)] :=
  C10_empty_column_list exCfg [] exNoNames exValues exTokenize "q" exTokens "employees"
    rfl (by decide) (by decide) rfl

end Replibyte
